import Mathlib

/-!
Verification development for the ROHC sniffer application
(`src/app/sniffer/sniffer.c`).

The sniffer captures frames, strips the link layer, runs each IP packet
through a compress/decompress round trip and compares the result with the
original.  This file gives a shallow embedding of the parts of the program
that the verified properties talk about:

  * the RTP-detection callback `rtp_detect_cb` (sniffer.c:999-1066);
  * the packet comparator `compare_packets` (sniffer.c:825-911);
  * the ring buffer of the last library traces, i.e. the recording half of
    `print_rohc_traces` (sniffer.c:947-971) and the draining loop inside
    `sniff` (sniffer.c:565-592);
  * the per-packet pipeline `compress_decompress` (sniffer.c:648-813);
  * the fatal error report of the capture loop `sniff` (sniffer.c:555-596).

Bytes are modelled as natural numbers (values `< 256` where a hypothesis is
needed); byte buffers as `List Nat`.

Host model: the sniffer reads the 16-bit UDP header fields with `memcpy`
into a `uint16_t` and converts with `ntohs` where the author intended a
port/length value.  We model a little-endian host — the usual deployment
target of this tool, and the one on which `ntohs` actually swaps bytes —
so a `memcpy`'d field whose wire bytes are `b0, b1` (network order, `b0`
most significant) yields the in-memory value `b0 + 256 * b1`, and
`ntohs v = (v % 256) * 256 + v / 256` recovers the wire value
`b0 * 256 + b1`.
-/

/-- `ntohs` on the modelled little-endian host: swap the two bytes of a
16-bit value. -/
def ntohs (v : Nat) : Nat := (v % 256) * 256 + v / 256

/-- The in-memory `uint16_t` obtained by `memcpy` from two consecutive
wire bytes on the modelled little-endian host. -/
def memcpy16 (b0 b1 : Nat) : Nat := b0 + 256 * b1

/-- Shallow embedding of `rtp_detect_cb` (sniffer.c:999-1066), the RTP
stream detection callback handed to the compressor.

* `ip` is unused by the function body (only `assert`ed non-NULL).
* `udp` holds the UDP header bytes: source port at offsets 0-1,
  destination port at offsets 2-3, UDP length at offsets 4-5, all in
  network byte order.
* The C function receives the payload pointer and a separate
  `payload_size`; the engine always passes the buffer's size, so the
  payload is modelled as the byte list and `payload_size` as its length.

Note that the C code applies `ntohs` to the source/destination ports in
the SIP test and to the UDP length, but tests the parity of `udp_dport`
on the raw `memcpy`'d value, i.e. (on the modelled little-endian host)
the parity of the destination port's most significant byte. -/
def rtp_detect_cb (ip udp payload : List Nat) : Bool :=
  let _ := ip
  let udp_sport := memcpy16 (udp.getD 0 0) (udp.getD 1 0)
  let udp_dport := memcpy16 (udp.getD 2 0) (udp.getD 3 0)
  let udp_len := memcpy16 (udp.getD 4 0) (udp.getD 5 0)
  /- SIP (UDP/5060) is not RTP -/
  if ntohs udp_sport = 5060 ∧ ntohs udp_dport = 5060 then false
  /- "the UDP destination port of RTP packet is even" — parity taken on the
     raw memcpy value, without ntohs -/
  else if udp_dport % 2 ≠ 0 then false
  /- UDP Length shall not be too large -/
  else if ntohs udp_len > 200 then false
  /- UDP payload shall at least contain the smallest RTP header -/
  else if payload.length < 12 then false
  /- RTP version bits shall be 2 -/
  else if (payload.getD 0 0 >>> 6) &&& 0x3 ≠ 0x2 then false
  /- RTP payload type shall be GSM (0x03), ITU-T G.723 (0x04),
     ITU-T G.729 (0x12) or telephony-event (0x65) -/
  else
    let rtp_pt := payload.getD 1 0 &&& 0x7f
    if rtp_pt ≠ 0x03 ∧ rtp_pt ≠ 0x04 ∧ rtp_pt ≠ 0x12 ∧ rtp_pt ≠ 0x65 then
      false
    else true

/-- All entries of a byte buffer are genuine bytes. -/
def ValidBytes (l : List Nat) : Prop := ∀ b ∈ l, b < 256

instance : DecidablePred ValidBytes := fun l =>
  inferInstanceAs (Decidable (∀ b ∈ l, b < 256))

/-- The classifier that the code actually implements, written in the
spec's vocabulary (amended claim C2): source and destination ports (as
network-order values) not both 5060; the first byte of the destination
port field — the port's high-order byte — even; the UDP length field at
most 200; at least 12 payload bytes; top two bits of the first payload
byte equal to binary 10; low seven bits of the second payload byte in
the codec allow-list. -/
def looks_like_rtp_spec (udp payload : List Nat) : Bool :=
  (!(udp.getD 0 0 * 256 + udp.getD 1 0 = 5060 ∧
     udp.getD 2 0 * 256 + udp.getD 3 0 = 5060 : Bool)) &&
  (udp.getD 2 0 % 2 = 0 : Bool) &&
  (udp.getD 4 0 * 256 + udp.getD 5 0 ≤ 200 : Bool) &&
  (12 ≤ payload.length : Bool) &&
  (payload.getD 0 0 / 64 = 2 : Bool) &&
  (payload.getD 1 0 % 128 = 3 ∨ payload.getD 1 0 % 128 = 4 ∨
   payload.getD 1 0 % 128 = 0x12 ∨ payload.getD 1 0 % 128 = 0x65 : Bool)

/-- The classifier that claim C2 describes, as stated: destination port
(as a value) even, and the UDP *payload length* at most 200 bytes. -/
def claimC2_rtp (udp payload : List Nat) : Bool :=
  (!(udp.getD 0 0 * 256 + udp.getD 1 0 = 5060 ∧
     udp.getD 2 0 * 256 + udp.getD 3 0 = 5060 : Bool)) &&
  ((udp.getD 2 0 * 256 + udp.getD 3 0) % 2 = 0 : Bool) &&
  (payload.length ≤ 200 : Bool) &&
  (12 ≤ payload.length : Bool) &&
  (payload.getD 0 0 / 64 = 2 : Bool) &&
  (payload.getD 1 0 % 128 = 3 ∨ payload.getD 1 0 % 128 = 4 ∨
   payload.getD 1 0 % 128 = 0x12 ∨ payload.getD 1 0 % 128 = 0x65 : Bool)

lemma ValidBytes.getD_lt {l : List Nat} (h : ValidBytes l) (i : Nat) :
    l.getD i 0 < 256 := by
  by_cases hi : i < l.length
  · have : l.getD i 0 ∈ l := by
      rw [List.getD_eq_getElem l 0 hi]
      exact List.getElem_mem hi
    exact h _ this
  · rw [List.getD_eq_default l 0 (Nat.le_of_not_lt hi)]
    omega

lemma ntohs_memcpy16 {b0 : Nat} (b1 : Nat) (h0 : b0 < 256) :
    ntohs (memcpy16 b0 b1) = b0 * 256 + b1 := by
  unfold ntohs memcpy16
  omega

/-- Claim C1 (code bug evidence): the packet below has UDP destination
port 3 — an odd port — and source port 1000 (so the SIP rule does not
apply), a UDP length of 20, a 12-byte payload with version bits `10` and
payload type 0x03; `rtp_detect_cb` classifies it as RTP anyway, because
the parity test is applied to the raw little-endian `memcpy` value, whose
low bit is the parity of the port's most significant byte (0x00 here),
not of the port value.  This contradicts the code's own comment ("the
UDP destination port of RTP packet is even") and spec rule 2. -/
theorem rtp_detect_cb_accepts_odd_dport :
    (([0x03, 0xE8, 0x00, 0x03, 0x00, 0x14] : List Nat).getD 2 0 * 256 +
        ([0x03, 0xE8, 0x00, 0x03, 0x00, 0x14] : List Nat).getD 3 0) % 2 = 1 ∧
    ¬(([0x03, 0xE8, 0x00, 0x03, 0x00, 0x14] : List Nat).getD 0 0 * 256 +
        ([0x03, 0xE8, 0x00, 0x03, 0x00, 0x14] : List Nat).getD 1 0 = 5060 ∧
      ([0x03, 0xE8, 0x00, 0x03, 0x00, 0x14] : List Nat).getD 2 0 * 256 +
        ([0x03, 0xE8, 0x00, 0x03, 0x00, 0x14] : List Nat).getD 3 0 = 5060) ∧
    rtp_detect_cb [] [0x03, 0xE8, 0x00, 0x03, 0x00, 0x14]
      (0x80 :: 0x03 :: List.replicate 10 0) = true := by
  decide

/-- Claim C2, counterexample: the packet below has destination port 256
(an even port value, high byte 0x01), source port 1000, UDP length 20 and
a well-formed 12-byte RTP-looking payload.  Every rule of the claim's
decision list holds (`claimC2_rtp` is `true`), yet `rtp_detect_cb`
returns `false`: the code tests the parity of the port's high-order byte
(odd here), not of the port, and it bounds the UDP length header field,
not the payload length. -/
theorem rtp_detect_cb_ne_claimC2 :
    rtp_detect_cb [] [0x03, 0xE8, 0x01, 0x00, 0x00, 0x14]
      (0x80 :: 0x03 :: List.replicate 10 0) = false ∧
    claimC2_rtp [0x03, 0xE8, 0x01, 0x00, 0x00, 0x14]
      (0x80 :: 0x03 :: List.replicate 10 0) = true := by
  decide

/-- Claim C2 (amended): for genuine byte buffers, `rtp_detect_cb` is a
pure predicate returning true exactly when: the source and destination
ports are not both 5060; the *first byte of the destination-port field*
(the port's high-order byte) is even; the UDP *length header field* is at
most 200; the payload is at least 12 bytes; the top 2 bits of the first
payload byte are binary 10; and the low 7 bits of the second payload byte
are in the allow-list {0x03, 0x04, 0x12, 0x65}. -/
theorem rtp_detect_cb_eq_spec (ip udp payload : List Nat)
    (hu : ValidBytes udp) (hp : ValidBytes payload) :
    rtp_detect_cb ip udp payload = looks_like_rtp_spec udp payload := by
  have h0 := hu.getD_lt 0
  have h2 := hu.getD_lt 2
  have h4 := hu.getD_lt 4
  have hp0 := hp.getD_lt 0
  have e2 : memcpy16 (udp.getD 2 0) (udp.getD 3 0) % 2 = udp.getD 2 0 % 2 := by
    unfold memcpy16; omega
  have e5 : ((payload.getD 0 0 >>> 6) &&& 3) = payload.getD 0 0 / 64 := by
    rw [Nat.shiftRight_eq_div_pow]
    have hq : payload.getD 0 0 / 2 ^ 6 < 4 := by omega
    rw [show (3 : Nat) = 2 ^ 2 - 1 by norm_num, Nat.and_pow_two_sub_one_eq_mod]
    omega
  have e6 : (payload.getD 1 0 &&& 127) = payload.getD 1 0 % 128 := by
    rw [show (127 : Nat) = 2 ^ 7 - 1 by norm_num,
        Nat.and_pow_two_sub_one_eq_mod]
  simp only [rtp_detect_cb, looks_like_rtp_spec]
  rw [ntohs_memcpy16 _ h0, ntohs_memcpy16 _ h2, ntohs_memcpy16 _ h4]
  simp only [e2, e5, e6]
  split_ifs with hsip hpar hlen hsz hver hpt <;> simp_all <;> omega

/-- Concrete instantiation of `rtp_detect_cb_eq_spec`. -/
theorem rtp_detect_cb_eq_spec_witness :
    ValidBytes [0x03, 0xE8, 0x14, 0x00, 0x00, 0x14] ∧
    ValidBytes (0x80 :: 0x03 :: List.replicate 10 0) ∧
    rtp_detect_cb [] [0x03, 0xE8, 0x14, 0x00, 0x00, 0x14]
        (0x80 :: 0x03 :: List.replicate 10 0) =
      looks_like_rtp_spec [0x03, 0xE8, 0x14, 0x00, 0x00, 0x14]
        (0x80 :: 0x03 :: List.replicate 10 0) :=
  ⟨by decide, by decide,
   rtp_detect_cb_eq_spec [] _ _ (by decide) (by decide)⟩

/-- Claim C3, counterexample: the spec's first test vector — destination
port 5061 (bytes 0x13 0xC5), a 20-byte payload with first byte 0x80 and
second byte 0x03 (source port 1234, UDP length 28) — is classified
*not*-RTP by the code: 5061 is odd, and the parity rule rejects it on
any host (on the modelled little-endian host because the high byte 0x13
is odd; the port value itself is odd too). -/
theorem rtp_detect_cb_vector1_false :
    rtp_detect_cb [] [0x04, 0xD2, 0x13, 0xC5, 0x00, 0x1C]
      (0x80 :: 0x03 :: List.replicate 18 0) = false := by
  decide

/-- Claim C3 (amended): the spec's vector with destination port 5061 is
classified not-RTP (the destination-port parity rule rejects it); the
same packet with source and destination port 5060 is not-RTP (SIP rule);
and with destination port 5063 it is not-RTP. -/
theorem rtp_detect_cb_vectors :
    rtp_detect_cb [] [0x04, 0xD2, 0x13, 0xC5, 0x00, 0x1C]
      (0x80 :: 0x03 :: List.replicate 18 0) = false ∧
    rtp_detect_cb [] [0x13, 0xC4, 0x13, 0xC4, 0x00, 0x1C]
      (0x80 :: 0x03 :: List.replicate 18 0) = false ∧
    rtp_detect_cb [] [0x04, 0xD2, 0x13, 0xC7, 0x00, 0x1C]
      (0x80 :: 0x03 :: List.replicate 18 0) = false := by
  decide

/-- One piece of the diagnostic text printed by `compare_packets`
(sniffer.c:825-911).  The row grouping of the two-column hex dump (4
cells per row, blank padding of the last row) is pure formatting and is
elided: each compared byte index yields one `cell` item recording the
separator style used in both columns — `#...#` when the bytes differ,
`[...]` when they agree — together with both byte values.  Cells appear
in index order, as in the C loop. -/
inductive CmpItem where
  | headerCompare : CmpItem
  | headerCols : CmpItem
  | sizeNote (pkt1_size pkt2_size min_size : Nat) : CmpItem
  | cell (i : Nat) (differs : Bool) (b1 b2 : Nat) : CmpItem
  | footer : CmpItem
  deriving DecidableEq

/-- Shallow embedding of `compare_packets` (sniffer.c:825-911): returns
the C `valid` flag (1 when the packets are equal, 0 otherwise) together
with the diagnostic output.  The fast path compares the sizes and (via
`memcmp` over `pkt1_size` bytes, i.e. full list equality once the sizes
agree) the bytes, and prints nothing.  The slow path compares at most
`min 180 (min pkt1_size pkt2_size)` bytes. -/
def compare_packets (pkt1 pkt2 : List Nat) : Int × List CmpItem :=
  let min_size := min 180 (min pkt1.length pkt2.length)
  if pkt1.length = pkt2.length ∧ pkt1 = pkt2 then
    (1, [])
  else
    (0,
     [CmpItem.headerCompare, CmpItem.headerCols] ++
     (if pkt1.length ≠ pkt2.length then
        [CmpItem.sizeNote pkt1.length pkt2.length min_size]
      else []) ++
     (List.range min_size).map (fun i =>
       CmpItem.cell i (decide (pkt1.getD i 0 ≠ pkt2.getD i 0))
         (pkt1.getD i 0) (pkt2.getD i 0)) ++
     [CmpItem.footer])

set_option maxRecDepth 4000 in
/-- Claim C4, counterexample: two 181-byte packets that differ only at
byte 180.  `compare_packets` reports them different, but its diagnostic
output contains no `#`-marked cell at all — the dump loop stops at 180
bytes, so the position of the differing byte is not marked anywhere,
contradicting "its diagnostic output marks the position of every
differing byte". -/
theorem compare_packets_misses_byte_180 :
    (List.replicate 181 (0 : Nat)).getD 180 0 ≠
      (List.replicate 180 (0 : Nat) ++ [1]).getD 180 0 ∧
    (compare_packets (List.replicate 181 0)
        (List.replicate 180 0 ++ [1])).1 = 0 ∧
    ((compare_packets (List.replicate 181 0)
        (List.replicate 180 0 ++ [1])).2.all fun it =>
      match it with
      | CmpItem.cell _ differs _ _ => !differs
      | _ => true) = true := by
  decide

/-- Claim C4 (amended): `compare_packets P P` returns equal (1) with no
diagnostic output; for `P ≠ P'` it returns not-equal (0) and its output
marks (with a `#` cell) the position of every differing byte *among the
first `min 180 (min |P| |P'|)` bytes* — the dump is bounded to 180 bytes
and to the overlap of the two packets. -/
theorem compare_packets_spec (pkt1 pkt2 : List Nat) :
    (pkt1 = pkt2 → compare_packets pkt1 pkt2 = (1, [])) ∧
    (pkt1 ≠ pkt2 →
      (compare_packets pkt1 pkt2).1 = 0 ∧
      ∀ i < min 180 (min pkt1.length pkt2.length),
        pkt1.getD i 0 ≠ pkt2.getD i 0 →
          CmpItem.cell i true (pkt1.getD i 0) (pkt2.getD i 0) ∈
            (compare_packets pkt1 pkt2).2) := by
  constructor
  · intro h
    subst h
    simp [compare_packets]
  · intro hne
    have hcond : ¬(pkt1.length = pkt2.length ∧ pkt1 = pkt2) := by
      rintro ⟨-, h⟩; exact hne h
    constructor
    · simp [compare_packets, hcond]
    · intro i hi hdiff
      simp only [compare_packets, if_neg hcond]
      simp only [List.mem_append, List.mem_map, List.mem_range]
      refine Or.inl (Or.inr ⟨i, hi, ?_⟩)
      simp only [CmpItem.cell.injEq, decide_eq_true_eq, eq_self_iff_true,
        true_and, and_true]
      simpa [List.getD] using hdiff

/-- Concrete instantiation of `compare_packets_spec`: equal packets give
`(1, [])`; the pair `[0]`, `[1]` gives result 0 with byte 0 marked. -/
theorem compare_packets_spec_witness :
    compare_packets [0, 7] [0, 7] = (1, []) ∧
    (([0] : List Nat) ≠ [1]) ∧
    (compare_packets [0] [1]).1 = 0 ∧
    CmpItem.cell 0 true 0 1 ∈ (compare_packets [0] [1]).2 := by
  refine ⟨(compare_packets_spec [0, 7] [0, 7]).1 rfl, by decide, ?_, ?_⟩
  · exact ((compare_packets_spec [0] [1]).2 (by decide)).1
  · have h := ((compare_packets_spec [0] [1]).2 (by decide)).2 0 (by decide)
      (by decide)
    simpa using h

/-- `MAX_LAST_TRACES` (sniffer.c:141): capacity of the trace ring buffer. -/
def MAX_LAST_TRACES : Nat := 5000

/-- The global ring-buffer state of the sniffer: the `last_traces` array
(slots indexed `0 ≤ i < MAX_LAST_TRACES`, modelled as a total function;
a stored line is modelled as an opaque `Nat`), and the two C `int`
cursors `last_traces_first` and `last_traces_last`, which start at `-1`
("no trace recorded yet", sniffer.c:182-183). -/
structure TraceState where
  buf : Nat → Nat
  first : Int
  last : Int

/-- The initial state set up in `main` (sniffer.c:178-183): empty lines,
both cursors `-1`. -/
def initTraces : TraceState := ⟨fun _ => 0, -1, -1⟩

/-- The ring-buffer half of `print_rohc_traces` (sniffer.c:947-971):
advance `last_traces_last` (from `-1` to `0` on the very first trace),
store the formatted line there, then advance `last_traces_first` when it
was `-1` (first trace) or when it collided with the new `last` (buffer
full: the oldest entry was just overwritten).  The live echo of
warning-level traces to stdout (sniffer.c:938-945) and the `vsnprintf`
truncation to `MAX_TRACE_LEN` characters are orthogonal to the ring
discipline; lines are stored as opaque values. -/
def record (st : TraceState) (line : Nat) : TraceState :=
  let last' : Int :=
    if st.last = -1 then 0 else (st.last + 1) % (MAX_LAST_TRACES : Int)
  let buf' : Nat → Nat := Function.update st.buf last'.toNat line
  let first' : Int :=
    if st.first = -1 then 0
    else if st.first = last' then (st.first + 1) % (MAX_LAST_TRACES : Int)
    else st.first
  ⟨buf', first', last'⟩

/-- The trace-dump loop in `sniff` (sniffer.c:565-592) as the list of
trace lines it prints, in print order: nothing when a cursor is still
`-1`; `last_traces[first..last]` when `first ≤ last`; otherwise the
wrapped window `last_traces[i % MAX_LAST_TRACES]` for
`i = first .. MAX_LAST_TRACES + last`.  The loop only reads the buffer —
draining leaves the state untouched, which the embedding reflects by
returning a list without producing a new `TraceState`. -/
def drain (st : TraceState) : List Nat :=
  if st.first = -1 ∨ st.last = -1 then []
  else if st.first ≤ st.last then
    (List.range (st.last - st.first + 1).toNat).map
      (fun k => st.buf (st.first.toNat + k))
  else
    (List.range (MAX_LAST_TRACES + st.last.toNat - st.first.toNat + 1)).map
      (fun k => st.buf ((st.first.toNat + k) % MAX_LAST_TRACES))

/-- The count announced by the header line `"print the last %d traces..."`
(sniffer.c:573-574 and 582-584): `last - first` in the contiguous case,
`MAX_LAST_TRACES - first + last` in the wrapped case. -/
def drainHeaderCount (st : TraceState) : Int :=
  if st.first ≤ st.last then st.last - st.first
  else (MAX_LAST_TRACES : Int) - st.first + st.last

lemma record_last (st : TraceState) (x : Nat) :
    (record st x).last =
      if st.last = -1 then 0 else (st.last + 1) % (MAX_LAST_TRACES : Int) :=
  rfl

lemma record_buf (st : TraceState) (x : Nat) :
    (record st x).buf = Function.update st.buf (record st x).last.toNat x :=
  rfl

lemma record_first (st : TraceState) (x : Nat) :
    (record st x).first =
      if st.first = -1 then 0
      else if st.first = (record st x).last then
        (st.first + 1) % (MAX_LAST_TRACES : Int)
      else st.first :=
  rfl

/-- State invariant after recording the non-empty sequence `ls` from the
initial state: `last` sits at `(|ls| - 1) % N`, `first` at `0` until the
buffer has wrapped and at `|ls| % N` afterwards, and slot `m % N` holds
`ls[m]` for each of the last `min |ls| N` insertions `m`. -/
def RingInv (ls : List Nat) (st : TraceState) : Prop :=
  st.last = (((ls.length - 1) % MAX_LAST_TRACES : Nat) : Int) ∧
  st.first = (if ls.length ≤ MAX_LAST_TRACES then (0 : Int)
              else ((ls.length % MAX_LAST_TRACES : Nat) : Int)) ∧
  ∀ m, ls.length - MAX_LAST_TRACES ≤ m → m < ls.length →
    st.buf (m % MAX_LAST_TRACES) = ls.getD m 0

lemma ring_inv_single (x : Nat) : RingInv [x] (record initTraces x) := by
  refine ⟨by simp [record, initTraces, MAX_LAST_TRACES], ?_, ?_⟩
  · simp [record, initTraces, MAX_LAST_TRACES]
  · intro m h1 h2
    simp only [List.length_singleton] at h2
    interval_cases m
    simp [record, initTraces, MAX_LAST_TRACES]

lemma ring_inv_record {ls : List Nat} {st : TraceState}
    (hne : ls ≠ []) (h : RingInv ls st) (x : Nat) :
    RingInv (ls ++ [x]) (record st x) := by
  obtain ⟨hlast, hfirst, hbuf⟩ := h
  have hK : 1 ≤ ls.length := List.length_pos.mpr hne
  set K := ls.length with hKdef
  have hlen : (ls ++ [x]).length = K + 1 := by simp
  have hNnum : MAX_LAST_TRACES = 5000 := rfl
  have hlast_ne : st.last ≠ -1 := by rw [hlast]; omega
  have hfirst_ne : st.first ≠ -1 := by rw [hfirst]; split <;> omega
  have hlast' : (record st x).last = ((K % MAX_LAST_TRACES : Nat) : Int) := by
    rw [record_last, if_neg hlast_ne, hlast, hNnum]
    omega
  have hlastNat : (record st x).last.toNat = K % MAX_LAST_TRACES := by
    rw [hlast']; omega
  refine ⟨?_, ?_, ?_⟩
  · rw [hlast', hlen, hNnum]
    omega
  · rw [record_first, if_neg hfirst_ne, hlast', hfirst, hlen, hNnum]
    by_cases hKN : K + 1 ≤ 5000
    · rw [if_pos (by omega : K ≤ 5000), if_pos hKN, if_neg (by omega)]
    · by_cases hKeq : K ≤ 5000
      · rw [if_pos hKeq, if_neg hKN, if_pos (by omega)]
        omega
      · rw [if_neg hKeq, if_neg hKN, if_pos (by omega)]
        omega
  · intro m h1 h2
    rw [hlen] at h1 h2
    rw [record_buf, hlastNat]
    by_cases hm : m = K
    · subst hm
      rw [Function.update_same, List.getD_append_right ls [x] 0 K (by omega)]
      simp
    · have hmK : m < K := by omega
      rw [Function.update_noteq (by rw [hNnum] at *; omega)]
      rw [List.getD_append ls [x] 0 m hmK]
      exact hbuf m (by omega) hmK

lemma ring_inv_foldl (ls : List Nat) (hne : ls ≠ []) :
    RingInv ls (ls.foldl record initTraces) := by
  induction ls using List.reverseRecOn with
  | nil => exact absurd rfl hne
  | append_singleton ls x ih =>
    rw [List.foldl_append]
    by_cases h : ls = []
    · subst h
      exact ring_inv_single x
    · exact ring_inv_record h (ih h) x

lemma map_getD_range (l : List Nat) :
    (List.range l.length).map (fun k => l.getD k 0) = l := by
  induction l with
  | nil => simp
  | cons a t ih =>
    rw [List.length_cons, List.range_succ_eq_map, List.map_cons, List.map_map]
    simp only [List.getD_cons_zero]
    congr 1

lemma map_getD_range_drop (l : List Nat) (d : Nat) :
    (List.range (l.length - d)).map (fun k => l.getD (d + k) 0) = l.drop d := by
  have h1 := map_getD_range (l.drop d)
  rw [List.length_drop] at h1
  rw [← h1]
  apply List.map_congr_left
  intro k hk
  simp [List.getD_eq_getElem?_getD, List.getElem?_drop]

set_option maxRecDepth 4000 in
lemma drain_of_ring_inv {ls : List Nat} {st : TraceState}
    (hne : ls ≠ []) (h : RingInv ls st) :
    drain st = ls.drop (ls.length - MAX_LAST_TRACES) ∧
    drainHeaderCount st + 1 = ((min ls.length MAX_LAST_TRACES : Nat) : Int) := by
  obtain ⟨hlast, hfirst, hbuf⟩ := h
  have hK : 1 ≤ ls.length := List.length_pos.mpr hne
  set K := ls.length with hKdef
  have hNnum : MAX_LAST_TRACES = 5000 := rfl
  rw [hNnum] at hlast hfirst hbuf ⊢
  by_cases hKN : K ≤ 5000
  · have hfirst0 : st.first = 0 := by rw [hfirst, if_pos hKN]
    have hlastv : st.last = ((K - 1 : Nat) : Int) := by
      rw [hlast]; congr 1; omega
    have hne1 : ¬(st.first = -1 ∨ st.last = -1) := by
      rw [hfirst0, hlastv]; omega
    have hle : st.first ≤ st.last := by rw [hfirst0, hlastv]; omega
    constructor
    · rw [drain, if_neg hne1, if_pos hle]
      have hcount : (st.last - st.first + 1).toNat = K := by
        rw [hfirst0, hlastv]; omega
      rw [hcount]
      have hmap : ∀ k ∈ List.range K,
          st.buf (st.first.toNat + k) = ls.getD k 0 := by
        intro k hk
        rw [List.mem_range] at hk
        have hb := hbuf k (by omega) hk
        rw [← hb]
        congr 1
        rw [hfirst0]
        omega
      rw [List.map_congr_left hmap, show K - 5000 = 0 by omega,
        List.drop_zero]
      exact map_getD_range ls
    · rw [drainHeaderCount, if_pos hle, hfirst0, hlastv]
      omega
  · have hfirstv : st.first = ((K % 5000 : Nat) : Int) := by
      rw [hfirst, if_neg hKN]
    have hne1 : ¬(st.first = -1 ∨ st.last = -1) := by
      rw [hfirstv, hlast]; omega
    by_cases hr : K % 5000 = 0
    · have hfirst0 : st.first = 0 := by rw [hfirstv, hr]; rfl
      have hlastv : st.last = ((4999 : Nat) : Int) := by
        rw [hlast]; congr 1; omega
      have hle : st.first ≤ st.last := by rw [hfirst0, hlastv]; omega
      constructor
      · rw [drain, if_neg hne1, if_pos hle]
        have hcount : (st.last - st.first + 1).toNat = 5000 := by
          rw [hfirst0, hlastv]; omega
        rw [hcount]
        have hmap : ∀ k ∈ List.range 5000,
            st.buf (st.first.toNat + k) = ls.getD (K - 5000 + k) 0 := by
          intro k hk
          rw [List.mem_range] at hk
          have hb := hbuf (K - 5000 + k) (by omega) (by omega)
          rw [← hb]
          congr 1
          rw [hfirst0]
          omega
        rw [List.map_congr_left hmap]
        have hd := map_getD_range_drop ls (K - 5000)
        rw [show ls.length - (K - 5000) = 5000 by omega] at hd
        exact hd
      · rw [drainHeaderCount, if_pos hle, hfirst0, hlastv]
        omega
    · have hlastv : st.last = ((K % 5000 - 1 : Nat) : Int) := by
        rw [hlast]; congr 1; omega
      have hle : ¬st.first ≤ st.last := by rw [hfirstv, hlastv]; omega
      constructor
      · rw [drain, if_neg hne1, if_neg hle, hNnum]
        have hcount : 5000 + st.last.toNat - st.first.toNat + 1 = 5000 := by
          rw [hfirstv, hlastv]; omega
        rw [hcount]
        have hmap : ∀ k ∈ List.range 5000,
            st.buf ((st.first.toNat + k) % 5000) =
              ls.getD (K - 5000 + k) 0 := by
          intro k hk
          rw [List.mem_range] at hk
          have hidx : (st.first.toNat + k) % 5000 =
              (K - 5000 + k) % 5000 := by
            rw [hfirstv]; omega
          rw [hidx]
          exact hbuf (K - 5000 + k) (by omega) (by omega)
        rw [List.map_congr_left hmap]
        have hd := map_getD_range_drop ls (K - 5000)
        rw [show ls.length - (K - 5000) = 5000 by omega] at hd
        exact hd
      · rw [drainHeaderCount, if_neg hle, hfirstv, hlastv, hNnum]
        omega

/-- Claim C5: after recording any sequence `ls` of trace lines through
the callback into the initially empty ring buffer, draining yields
exactly the last `min |ls| 5000` recorded lines, oldest to newest —
`ls.drop (|ls| - MAX_LAST_TRACES)` — including across wraparound;
recording overwrites the oldest entry when full (reflected in the drop),
and draining is read-only by construction (`drain` returns a list and no
new state). -/
theorem ring_buffer_drain_last (ls : List Nat) :
    drain (ls.foldl record initTraces) =
      ls.drop (ls.length - MAX_LAST_TRACES) ∧
    (drain (ls.foldl record initTraces)).length =
      min ls.length MAX_LAST_TRACES := by
  by_cases hne : ls = []
  · subst hne
    simp [drain, initTraces, MAX_LAST_TRACES]
  · have h := drain_of_ring_inv hne (ring_inv_foldl ls hne)
    refine ⟨h.1, ?_⟩
    rw [h.1, List.length_drop]
    omega

/-- Claim C10: whenever the ring buffer is drained while non-empty, the
header line announces `drainHeaderCount` traces but the dump loop prints
one more line than that: the announced count is exactly the number of
printed lines minus one, in both the contiguous and the wrapped case. -/
theorem drain_header_off_by_one (ls : List Nat) (hne : ls ≠ []) :
    drainHeaderCount (ls.foldl record initTraces) + 1 =
      ((drain (ls.foldl record initTraces)).length : Int) := by
  have h := drain_of_ring_inv hne (ring_inv_foldl ls hne)
  rw [h.2, h.1, List.length_drop]
  omega

/-- Concrete instantiation of `drain_header_off_by_one`: one recorded
trace, header announces 0, one line printed. -/
theorem drain_header_off_by_one_witness :
    ([7] : List Nat) ≠ [] ∧
    drainHeaderCount (([7] : List Nat).foldl record initTraces) + 1 =
      ((drain (([7] : List Nat).foldl record initTraces)).length : Int) :=
  ⟨by decide, drain_header_off_by_one [7] (by decide)⟩

/-- One item written by the session controller's fatal error path in
`sniff` (sniffer.c:555-596): the statistics line with all six counters,
the `"no trace to display"` message, the `"print the last %d traces..."`
header, one recorded trace line, and the final `assert(0)` that kills
the process. -/
inductive SnifferEvent where
  | statsLine (counter cid nb_ok err_comp err_decomp nb_ref nb_bad
      nb_internal_err : Nat) : SnifferEvent
  | noTrace : SnifferEvent
  | traceHeader (n : Int) : SnifferEvent
  | traceLine (line : Nat) : SnifferEvent
  | abortProgram : SnifferEvent
  deriving DecidableEq

/-- The error report of `sniff` (sniffer.c:558-595), transcribed in
emission order: the full statistics line (and flush), then either the
`"no trace to display"` message when both cursors are still `-1` or the
trace header followed by the drained ring-buffer lines, and finally
`assert(0)`. -/
def errorReport (counter cid nb_ok err_comp err_decomp nb_ref nb_bad
    nb_internal_err : Nat) (st : TraceState) : List SnifferEvent :=
  SnifferEvent.statsLine counter cid nb_ok err_comp err_decomp nb_ref nb_bad
      nb_internal_err ::
  ((if st.first = -1 ∨ st.last = -1 then [SnifferEvent.noTrace]
    else SnifferEvent.traceHeader (drainHeaderCount st) ::
      (drain st).map SnifferEvent.traceLine) ++
   [SnifferEvent.abortProgram])

/-- The per-iteration outcome handling of `sniff` (sniffer.c:555-596):
on any pipeline return other than `1` (Success) the error report is
written and the process aborted; on success nothing is written. -/
def handleOutcome (ret : Int) (counter cid nb_ok err_comp err_decomp nb_ref
    nb_bad nb_internal_err : Nat) (st : TraceState) : List SnifferEvent :=
  if ret ≠ 1 then
    errorReport counter cid nb_ok err_comp err_decomp nb_ref nb_bad
      nb_internal_err st
  else []

/-- The cursor states the ring buffer can actually reach: both cursors
`-1` (nothing recorded), or both inside `[0, MAX_LAST_TRACES)`. -/
def WFTraceState (st : TraceState) : Prop :=
  (st.first = -1 ∧ st.last = -1) ∨
  (0 ≤ st.first ∧ st.first < (MAX_LAST_TRACES : Int) ∧
   0 ≤ st.last ∧ st.last < (MAX_LAST_TRACES : Int))

lemma drain_eq_nil_iff {st : TraceState} (hwf : WFTraceState st) :
    drain st = [] ↔ (st.first = -1 ∨ st.last = -1) := by
  constructor
  · intro h
    by_contra hc
    rw [drain, if_neg hc] at h
    rcases hwf with ⟨h1, h2⟩ | ⟨h1, h2, h3, h4⟩
    · exact hc (Or.inl h1)
    · by_cases hle : st.first ≤ st.last
      · rw [if_pos hle] at h
        rw [List.map_eq_nil, List.range_eq_nil] at h
        omega
      · rw [if_neg hle] at h
        rw [List.map_eq_nil, List.range_eq_nil] at h
        have hNnum : MAX_LAST_TRACES = 5000 := rfl
        omega
  · intro h
    rw [drain, if_pos h]

/-- Claim C8: on every pipeline outcome other than Success (`ret ≠ 1`),
the session controller writes the full statistics line first, then the
entire trace-buffer contents — the drained lines oldest to newest, with
their header, or the explicit `"no trace to display"` message when the
buffer is empty — and only after all of that aborts: the abort is the
last event.  (On success, `handleOutcome` emits nothing.) -/
theorem sniff_error_report (ret : Int) (counter cid nb_ok err_comp
    err_decomp nb_ref nb_bad nb_internal_err : Nat) (st : TraceState)
    (hret : ret ≠ 1) (hwf : WFTraceState st) :
    handleOutcome ret counter cid nb_ok err_comp err_decomp nb_ref nb_bad
        nb_internal_err st =
      SnifferEvent.statsLine counter cid nb_ok err_comp err_decomp nb_ref
          nb_bad nb_internal_err ::
        ((if drain st = [] then [SnifferEvent.noTrace]
          else SnifferEvent.traceHeader (drainHeaderCount st) ::
            (drain st).map SnifferEvent.traceLine) ++
         [SnifferEvent.abortProgram]) ∧
    (handleOutcome ret counter cid nb_ok err_comp err_decomp nb_ref nb_bad
        nb_internal_err st).getLast? = some SnifferEvent.abortProgram := by
  have hmain : handleOutcome ret counter cid nb_ok err_comp err_decomp nb_ref
      nb_bad nb_internal_err st =
      errorReport counter cid nb_ok err_comp err_decomp nb_ref nb_bad
        nb_internal_err st := by
    rw [handleOutcome, if_pos hret]
  constructor
  · rw [hmain, errorReport]
    congr 1
    by_cases hc : st.first = -1 ∨ st.last = -1
    · rw [if_pos hc, if_pos ((drain_eq_nil_iff hwf).mpr hc)]
    · rw [if_neg hc, if_neg (fun h => hc ((drain_eq_nil_iff hwf).mp h))]
  · rw [hmain, errorReport]
    rw [← List.cons_append]
    exact List.getLast?_concat _

/-- Concrete instantiation of `sniff_error_report`: a mismatch outcome
(`ret = 0`) with the initial, empty trace buffer. -/
theorem sniff_error_report_witness :
    (0 : Int) ≠ 1 ∧ WFTraceState initTraces ∧
    handleOutcome 0 1 0 3 0 0 1 0 0 initTraces =
      [SnifferEvent.statsLine 1 0 3 0 0 1 0 0, SnifferEvent.noTrace,
       SnifferEvent.abortProgram] :=
  ⟨by decide, Or.inl ⟨rfl, rfl⟩, by
    have h := (sniff_error_report 0 1 0 3 0 0 1 0 0 initTraces (by decide)
      (Or.inl ⟨rfl, rfl⟩)).1
    simpa [drain, initTraces] using h⟩

/-- `ETHER_HDR_LEN` from `net/ethernet.h` (14 bytes), selected for
`DLT_EN10MB` captures (sniffer.c:397-400). -/
def ETHER_HDR_LEN : Nat := 14

/-- `LINUX_COOKED_HDR_LEN` (sniffer.c:89), selected for `DLT_LINUX_SLL`
captures. -/
def LINUX_COOKED_HDR_LEN : Nat := 16

/-- `ETHER_FRAME_MIN_LEN` (sniffer.c:92): the minimum Ethernet frame
length. -/
def ETHER_FRAME_MIN_LEN : Nat := 60

/-- Result of `rohc_comp_get_last_packet_info2` (sniffer.c:742): the
context id and whether this packet initialized a fresh context. -/
structure LastPacketInfo where
  context_id : Nat
  is_context_init : Bool

/-- The external ROHC engine at the interface `compress_decompress`
uses: `rohc_compress` and `rohc_decompress` return a size (`≤ 0` means
failure) and the produced bytes; `rohc_comp_get_last_packet_info2`
returns the last-packet metadata or fails (`none`). -/
structure Engine where
  compress : List Nat → Int × List Nat
  last_packet_info : Option LastPacketInfo
  decompress : List Nat → Int × List Nat

/-- One externally visible action of `compress_decompress`, in program
order: an engine compression call (recording the exact payload handed
over), the fallback dump of a frame that failed to compress, closing and
deleting a context's previous dump file, opening a fresh per-context
dump file, appending the captured frame to a context's dump file, and an
engine decompression call. -/
inductive PipeEvent where
  | compressCall (payload : List Nat) : PipeEvent
  | dumpDefault (packet : List Nat) : PipeEvent
  | replaceDump (cid : Nat) : PipeEvent
  | openDump (cid : Nat) : PipeEvent
  | dumpContext (cid : Nat) (packet : List Nat) : PipeEvent
  | decompressCall (rohc : List Nat) : PipeEvent
  deriving DecidableEq

/-- What one `compress_decompress` call produces: the C return value,
the per-context dumper table afterwards (`true` = a dump file is open
for that context id), and the engine/dump actions performed, in order.
An empty event list models "the engine was never invoked". -/
structure PipeResult where
  ret : Int
  dumpers : Nat → Bool
  events : List PipeEvent

/-- The spec's name for the return code of the malformed-capture path
(sniffer.c:669-675, `ret = -3`). -/
def MalformedCapture : Int := -3

/-- The true total length read from the IP header during padding
correction (sniffer.c:684-698): the version nibble of the first byte
selects either the IPv4 `tot_len` field (offset 2, network order) or
the IPv6 layout `sizeof(struct ip6_hdr) + ip6_plen` = 40 plus the
payload-length field (offset 4, network order).  Every version nibble
other than 4 takes the IPv6 branch. -/
def tot_len_of_ip (ip_packet : List Nat) : Nat :=
  let version := (ip_packet.getD 0 0 >>> 4) &&& 0xf
  if version = 4 then
    ip_packet.getD 2 0 * 256 + ip_packet.getD 3 0
  else
    40 + (ip_packet.getD 4 0 * 256 + ip_packet.getD 5 0)

/-- Shallow embedding of `compress_decompress` (sniffer.c:648-813).

* Frame validation: `header.len <= link_len_src || header.len !=
  header.caplen` returns `-3` before anything else happens.
* Link-layer stripping: `ip_packet = packet + link_len_src`,
  `ip_size = header.len - link_len_src`.
* Padding correction: only for Ethernet (`link_len_src == ETHER_HDR_LEN`)
  frames of exactly `ETHER_FRAME_MIN_LEN` bytes, truncate `ip_size` to
  `tot_len_of_ip` when that is smaller.
* Compression (the payload handed over is the first `ip_size` bytes of
  the stripped packet), metadata query, per-context dump maintenance,
  the append of the captured frame, decompression, and the comparison
  via `compare_packets`, returning the C codes 1 / 0 / -1 / -2 / -4.
  The comparator's own diagnostic output is modelled inside
  `compare_packets` and not repeated in the event list. -/
def compress_decompress (eng : Engine) (hdr_len hdr_caplen : Nat)
    (packet : List Nat) (link_len_src : Nat) (dumpers : Nat → Bool) :
    PipeResult :=
  if hdr_len ≤ link_len_src ∨ hdr_len ≠ hdr_caplen then
    ⟨-3, dumpers, []⟩
  else
    let ip_packet := packet.drop link_len_src
    let ip_size_stripped := hdr_len - link_len_src
    let ip_size :=
      if link_len_src = ETHER_HDR_LEN ∧ hdr_len = ETHER_FRAME_MIN_LEN then
        if tot_len_of_ip ip_packet < ip_size_stripped then
          tot_len_of_ip ip_packet
        else ip_size_stripped
      else ip_size_stripped
    let payload := ip_packet.take ip_size
    let cres := eng.compress payload
    if cres.1 ≤ 0 then
      ⟨-1, dumpers,
       [PipeEvent.compressCall payload, PipeEvent.dumpDefault packet]⟩
    else
      match eng.last_packet_info with
      | none => ⟨-4, dumpers, [PipeEvent.compressCall payload]⟩
      | some info =>
        let dumpEvents :=
          if info.is_context_init then
            (if dumpers info.context_id then
               [PipeEvent.replaceDump info.context_id]
             else []) ++ [PipeEvent.openDump info.context_id]
          else []
        let dumpers' :=
          if info.is_context_init then
            Function.update dumpers info.context_id true
          else dumpers
        let dres := eng.decompress cres.2
        let events :=
          PipeEvent.compressCall payload ::
            (dumpEvents ++
             [PipeEvent.dumpContext info.context_id packet,
              PipeEvent.decompressCall cres.2])
        if dres.1 ≤ 0 then
          ⟨-2, dumpers', events⟩
        else if (compare_packets payload dres.2).1 = 1 then
          ⟨1, dumpers', events⟩
        else
          ⟨0, dumpers', events⟩

/-- The payload of the first compression call in an event list, if any. -/
def firstCompressArg : List PipeEvent → Option (List Nat)
  | [] => none
  | PipeEvent.compressCall p :: _ => some p
  | _ :: rest => firstCompressArg rest

/-- Shared characterization of the payload handed to `rohc_compress` by
`compress_decompress` on a valid frame: on every execution path the
first (and only) compression call receives the stripped IP packet,
truncated to `tot_len_of_ip` exactly when the link layer is Ethernet,
the frame has the minimum Ethernet length, and that true total length is
smaller than the stripped size. -/
lemma pipeline_compress_payload (eng : Engine)
    (hdr_len hdr_caplen link_len_src : Nat)
    (packet : List Nat) (dumpers : Nat → Bool)
    (h1 : link_len_src < hdr_len) (h2 : hdr_len = hdr_caplen)
    (h3 : packet.length = hdr_caplen) :
    firstCompressArg
        (compress_decompress eng hdr_len hdr_caplen packet link_len_src
          dumpers).events =
      some (if link_len_src = ETHER_HDR_LEN ∧ hdr_len = ETHER_FRAME_MIN_LEN ∧
               tot_len_of_ip (packet.drop link_len_src) <
                 hdr_len - link_len_src
            then (packet.drop link_len_src).take
                   (tot_len_of_ip (packet.drop link_len_src))
            else packet.drop link_len_src) := by
  have hval : ¬(hdr_len ≤ link_len_src ∨ hdr_len ≠ hdr_caplen) := by omega
  have hiplen : (packet.drop link_len_src).length = hdr_len - link_len_src := by
    rw [List.length_drop, h3, h2]
  have hpay :
      (packet.drop link_len_src).take
          (if link_len_src = ETHER_HDR_LEN ∧ hdr_len = ETHER_FRAME_MIN_LEN then
            if tot_len_of_ip (packet.drop link_len_src) <
                hdr_len - link_len_src then
              tot_len_of_ip (packet.drop link_len_src)
            else hdr_len - link_len_src
          else hdr_len - link_len_src) =
        (if link_len_src = ETHER_HDR_LEN ∧ hdr_len = ETHER_FRAME_MIN_LEN ∧
             tot_len_of_ip (packet.drop link_len_src) < hdr_len - link_len_src
         then (packet.drop link_len_src).take
                (tot_len_of_ip (packet.drop link_len_src))
         else packet.drop link_len_src) := by
    by_cases c1 : link_len_src = ETHER_HDR_LEN ∧ hdr_len = ETHER_FRAME_MIN_LEN
    · rw [if_pos c1]
      by_cases c2 : tot_len_of_ip (packet.drop link_len_src) <
          hdr_len - link_len_src
      · rw [if_pos c2, if_pos ⟨c1.1, c1.2, c2⟩]
      · rw [if_neg c2, if_neg (fun h => c2 h.2.2), ← hiplen, List.take_length]
    · rw [if_neg c1, if_neg (fun h => c1 ⟨h.1, h.2.1⟩), ← hiplen,
        List.take_length]
  simp only [compress_decompress, if_neg hval]
  simp only [hpay]
  repeat' split
  all_goals rfl

/-- Claim C6: a frame whose declared length does not exceed the
link-layer header length, or whose declared length differs from its
captured length, makes the pipeline return the MalformedCapture code
(`-3`) with the per-context dump table unchanged and no engine or dump
action performed at all. -/
theorem pipeline_malformed_capture (eng : Engine) (hdr_len hdr_caplen : Nat)
    (packet : List Nat) (link_len_src : Nat) (dumpers : Nat → Bool)
    (h : hdr_len ≤ link_len_src ∨ hdr_len ≠ hdr_caplen) :
    (compress_decompress eng hdr_len hdr_caplen packet link_len_src
        dumpers).ret = MalformedCapture ∧
    (compress_decompress eng hdr_len hdr_caplen packet link_len_src
        dumpers).dumpers = dumpers ∧
    (compress_decompress eng hdr_len hdr_caplen packet link_len_src
        dumpers).events = [] := by
  refine ⟨?_, ?_, ?_⟩ <;> simp [compress_decompress, if_pos h, MalformedCapture]

/-- A concrete engine for witnesses: compression and decompression both
succeed and return the input bytes unchanged. -/
def engDemo : Engine where
  compress := fun p => ((p.length : Int), p)
  last_packet_info := some ⟨0, true⟩
  decompress := fun p => ((p.length : Int), p)

/-- Concrete instantiation of `pipeline_malformed_capture`: a truncated
frame (declared length 10, not exceeding a 14-byte link header). -/
theorem pipeline_malformed_capture_witness :
    ((10 : Nat) ≤ 14 ∨ (10 : Nat) ≠ 10) ∧
    (compress_decompress engDemo 10 10 (List.replicate 10 0) 14
        (fun _ => false)).ret = MalformedCapture ∧
    (compress_decompress engDemo 10 10 (List.replicate 10 0) 14
        (fun _ => false)).dumpers = (fun _ => false) ∧
    (compress_decompress engDemo 10 10 (List.replicate 10 0) 14
        (fun _ => false)).events = [] :=
  ⟨Or.inl (by decide),
   pipeline_malformed_capture engDemo 10 10 (List.replicate 10 0) 14
     (fun _ => false) (Or.inl (by decide))⟩

/-- Claim C7: the payload handed to the compression engine is the
stripped IP packet truncated to the true total length (computed from the
IP header by `tot_len_of_ip`) exactly when the link layer is Ethernet
(`link_len_src = ETHER_HDR_LEN`), the frame is exactly the minimum
Ethernet frame length, and that true length is smaller than the stripped
payload size; in every other case the stripped payload is handed over
unmodified. -/
theorem pipeline_padding_trim (eng : Engine)
    (hdr_len hdr_caplen link_len_src : Nat)
    (packet : List Nat) (dumpers : Nat → Bool)
    (h1 : link_len_src < hdr_len) (h2 : hdr_len = hdr_caplen)
    (h3 : packet.length = hdr_caplen) :
    firstCompressArg
        (compress_decompress eng hdr_len hdr_caplen packet link_len_src
          dumpers).events =
      some (if link_len_src = ETHER_HDR_LEN ∧ hdr_len = ETHER_FRAME_MIN_LEN ∧
               tot_len_of_ip (packet.drop link_len_src) <
                 hdr_len - link_len_src
            then (packet.drop link_len_src).take
                   (tot_len_of_ip (packet.drop link_len_src))
            else packet.drop link_len_src) :=
  pipeline_compress_payload eng hdr_len hdr_caplen link_len_src packet
    dumpers h1 h2 h3

set_option maxRecDepth 4000 in
/-- Concrete instantiation of `pipeline_padding_trim`: a 60-byte
Ethernet frame carrying an IPv4 packet whose total-length field declares
40 bytes; the engine is handed only the first 40 of the 46 stripped
bytes. -/
theorem pipeline_padding_trim_witness :
    ((14 : Nat) < 60) ∧ ((60 : Nat) = 60) ∧
    (List.replicate 14 0 ++
      (0x45 :: 0x00 :: 0x00 :: 0x28 :: List.replicate 42 (0 : Nat))).length
      = 60 ∧
    firstCompressArg
        (compress_decompress engDemo 60 60
          (List.replicate 14 0 ++
            (0x45 :: 0x00 :: 0x00 :: 0x28 :: List.replicate 42 (0 : Nat)))
          14 (fun _ => false)).events =
      some (0x45 :: 0x00 :: 0x00 :: 0x28 :: List.replicate 36 (0 : Nat)) := by
  refine ⟨by decide, rfl, by decide, ?_⟩
  have h := pipeline_padding_trim engDemo 60 60 14
    (List.replicate 14 0 ++
      (0x45 :: 0x00 :: 0x00 :: 0x28 :: List.replicate 42 (0 : Nat)))
    (fun _ => false) (by decide) rfl (by decide)
  rw [h]
  decide

/-- Claim C9: during padding correction of a minimum-length Ethernet
frame, every IP version nibble other than 4 is handled through the IPv6
layout — true length 40 plus the payload-length field at offsets 4-5 —
whether or not the packet is IPv6: the engine receives the stripped
packet cut to `min (40 + plen) 46`. -/
theorem pipeline_nonipv4_ipv6_layout (eng : Engine) (packet : List Nat)
    (dumpers : Nat → Bool) (h3 : packet.length = 60)
    (hver : ((packet.drop ETHER_HDR_LEN).getD 0 0 >>> 4) &&& 0xf ≠ 4) :
    firstCompressArg
        (compress_decompress eng ETHER_FRAME_MIN_LEN ETHER_FRAME_MIN_LEN
          packet ETHER_HDR_LEN dumpers).events =
      some ((packet.drop ETHER_HDR_LEN).take
        (min (40 + ((packet.drop ETHER_HDR_LEN).getD 4 0 * 256 +
                    (packet.drop ETHER_HDR_LEN).getD 5 0)) 46)) := by
  have htot : tot_len_of_ip (packet.drop ETHER_HDR_LEN) =
      40 + ((packet.drop ETHER_HDR_LEN).getD 4 0 * 256 +
            (packet.drop ETHER_HDR_LEN).getD 5 0) := by
    simp only [tot_len_of_ip]
    rw [if_neg hver]
  have h := pipeline_compress_payload eng ETHER_FRAME_MIN_LEN
    ETHER_FRAME_MIN_LEN ETHER_HDR_LEN packet dumpers (by decide) rfl
    (by simpa [ETHER_FRAME_MIN_LEN] using h3)
  rw [h]
  have hiplen : (packet.drop ETHER_HDR_LEN).length = 46 := by
    rw [List.length_drop, h3]
    decide
  have hsub : ETHER_FRAME_MIN_LEN - ETHER_HDR_LEN = 46 := by decide
  rw [hsub]
  by_cases hlt : tot_len_of_ip (packet.drop ETHER_HDR_LEN) < 46
  · rw [if_pos ⟨rfl, rfl, hlt⟩]
    rw [htot] at hlt
    rw [htot, Nat.min_eq_left (Nat.le_of_lt hlt)]
  · rw [if_neg (fun hc => hlt hc.2.2)]
    rw [htot] at hlt
    rw [Nat.min_eq_right (by omega), ← hiplen, List.take_length]

set_option maxRecDepth 4000 in
/-- Concrete instantiation of `pipeline_nonipv4_ipv6_layout`: a 60-byte
Ethernet frame whose first stripped byte is `0x60` (version nibble 6)
and whose bytes at offsets 4-5 are zero: the engine receives only the
first `min (40 + 0) 46 = 40` stripped bytes. -/
theorem pipeline_nonipv4_ipv6_layout_witness :
    (List.replicate 14 0 ++ (0x60 :: List.replicate 45 (0 : Nat))).length
      = 60 ∧
    ((((List.replicate 14 0 ++ (0x60 :: List.replicate 45 (0 : Nat))).drop
        ETHER_HDR_LEN).getD 0 0 >>> 4) &&& 0xf ≠ 4) ∧
    firstCompressArg
        (compress_decompress engDemo ETHER_FRAME_MIN_LEN ETHER_FRAME_MIN_LEN
          (List.replicate 14 0 ++ (0x60 :: List.replicate 45 (0 : Nat)))
          ETHER_HDR_LEN (fun _ => false)).events =
      some (0x60 :: List.replicate 39 (0 : Nat)) := by
  refine ⟨by decide, by decide, ?_⟩
  have h := pipeline_nonipv4_ipv6_layout engDemo
    (List.replicate 14 0 ++ (0x60 :: List.replicate 45 (0 : Nat)))
    (fun _ => false) (by decide) (by decide)
  rw [h]
  decide
